import Mathlib

/-!
Verification of the FLE control plane (factorio_server package) against its
natural-language specification.

The development shallowly embeds the relevant parts of the Python sources:

* `src/fle/factorio_server/rcon.py` — the RCON protocol client: packet
  framing (`_write_packet` / `_read_packet`), the background reader
  (`_consume_reader`), id allocation (`_get_next_id`), `connect` and
  `aclose`.
* `src/fle/factorio_server/world.py` — the RPC bridge (`World`): the
  tick-stepping primitive `step`, `get_current_tick`, `call_mod` and
  `create_entities`.
* `src/fle/factorio_server/factorio_server.py` — the process supervisor:
  `_try_create_server` cleanup behaviour and `save_world`.

Machine integers are modelled as `Int` with explicit reduction modulo `2^32`
where the Python code packs them into 4 wire bytes; byte strings are
`List Nat` with every element `< 256`.  Asyncio futures are modelled as a
store (`List (Option FutureResult)`) of single-assignment slots, indexed by
position; the pending-request dict maps a request id to the index of the
slot its sender awaits.  Effects (filesystem operations, subprocess
control) are modelled as explicit event traces.
-/

/-! ### Constants from rcon.py -/

/-- Python: `_MAX_32_BIT_SIGNED_INT = (2**31) - 1`. -/
def MAX_32_BIT_SIGNED_INT : Int := 2 ^ 31 - 1

/-- Python: `_SERVERDATA_AUTH = 3`. -/
def SERVERDATA_AUTH : Int := 3

/-- Python: `_SERVERDATA_AUTH_RESPONSE = 2`. -/
def SERVERDATA_AUTH_RESPONSE : Int := 2

/-- Python: `_SERVERDATA_EXECCOMMAND = 2`. -/
def SERVERDATA_EXECCOMMAND : Int := 2

/-- Python: `_SERVERDATA_RESPONSE_VALUE = 0`. -/
def SERVERDATA_RESPONSE_VALUE : Int := 0

/-! ### Packet framing (rcon.py `_Packet`, `_write_packet`, `_read_packet`) -/

/-- Python dataclass `_Packet(pkt_id, type, body)`.  The body is a `str` in
Python; it is modelled here by its UTF-8 byte sequence (Python's
`str.encode("utf8")` / `bytes.decode("utf-8")` are mutually inverse between
strings and valid UTF-8 byte sequences, so this loses nothing for the
framing round-trip). -/
structure Packet where
  pkt_id : Int
  type : Int
  body : List Nat
  deriving DecidableEq, Repr

/-- `struct.pack "<i" v`: the 4 little-endian bytes of a 32-bit signed
integer (two's complement). -/
def int32ToLE (v : Int) : List Nat :=
  let u : Nat := (v % 4294967296).toNat
  [u % 256, u / 256 % 256, u / 65536 % 256, u / 16777216 % 256]

/-- `struct.unpack "<i"`: reassemble a 32-bit signed integer from 4
little-endian bytes. -/
def leToInt32 (b : List Nat) : Int :=
  let u : Nat := b.getD 0 0 + 256 * b.getD 1 0 + 65536 * b.getD 2 0 + 16777216 * b.getD 3 0
  if u < 2147483648 then (u : Int) else (u : Int) - 4294967296

/-- Python `_write_packet`: `struct.pack("<ii", pkt_id, type) + body + b"\x00\x00"`,
prefixed with `struct.pack("<i", len(packet_bytes))`. -/
def write_packet (p : Packet) : List Nat :=
  let packet_bytes := int32ToLE p.pkt_id ++ int32ToLE p.type ++ p.body ++ [0, 0]
  int32ToLE (packet_bytes.length : Int) ++ packet_bytes

/-- Python `_read_packet`, applied to a buffer holding exactly one frame:
read a 12-byte header, unpack `<iii` as (size, id, type), `readexactly`
`size - 8` further bytes, and drop the final two terminator bytes.
`none` models the failure of `readexactly` (wrong byte count available)
or of `readexactly` being handed a negative count. -/
def read_packet (b : List Nat) : Option Packet :=
  if b.length < 12 then none
  else
    let pkt_size := leToInt32 (b.take 4)
    let pkt_id := leToInt32 ((b.drop 4).take 4)
    let pkt_type := leToInt32 ((b.drop 8).take 4)
    let len_to_read := pkt_size - 8
    if len_to_read < 0 then none
    else if (b.drop 12).length = len_to_read.toNat then
      let rest := b.drop 12
      some ⟨pkt_id, pkt_type, rest.take (rest.length - 2)⟩
    else none

/-- A packet the Python code can actually frame: id and type fit in a
signed int32 (`struct.pack "<ii"` raises otherwise), the body is a byte
sequence, and the total frame length fits in the int32 size prefix. -/
def ValidPacket (p : Packet) : Prop :=
  -2147483648 ≤ p.pkt_id ∧ p.pkt_id < 2147483648 ∧
  -2147483648 ≤ p.type ∧ p.type < 2147483648 ∧
  (p.body.length : Int) + 10 < 2147483648 ∧
  ∀ x ∈ p.body, x < 256

/-- A well-formed wire frame: all elements are bytes, the size field equals
the byte count that follows it, the frame is long enough to contain header
and the two terminators, and it ends with the two null terminator bytes. -/
def WellFormedFrame (b : List Nat) : Prop :=
  (∀ x ∈ b, x < 256) ∧
  leToInt32 (b.take 4) = (b.length : Int) - 4 ∧
  14 ≤ b.length ∧
  b.drop (b.length - 2) = [0, 0]

/-! ### The background reader (rcon.py `_ExpectedResponse`, `_consume_reader`) -/

/-- The terminal value an asyncio future can be given: `set_result(pkt)` or
`set_exception(RCONAuthFailure(...))`. -/
inductive FutureResult
  | value (p : Packet)
  | authFailure
  deriving DecidableEq, Repr

/-- A store of single-assignment future slots.  `none` is an unresolved
future; a slot survives independently of the pending map that references
it (the sender holds its own reference to the future). -/
abbrev FutureStore := List (Option FutureResult)

/-- Python dataclass `_ExpectedResponse(is_auth, response_future)`; the
future is modelled by the index of its slot in the `FutureStore`. -/
structure ExpectedResponse where
  is_auth : Bool
  response_future : Nat
  deriving DecidableEq, Repr

/-- The dict `expected_responses_by_request_id`, as an association list. -/
abbrev PendingMap := List (Int × ExpectedResponse)

/-- Dict lookup `expected_responses_by_request_id[pkt_id]` (as `Option`). -/
def lookupPending (m : PendingMap) (id : Int) : Option ExpectedResponse :=
  (m.find? fun kv => kv.1 = id).map Prod.snd

/-- `future.set_result` / `future.set_exception`: assign slot `i`. -/
def setFuture (fs : FutureStore) (i : Nat) (r : FutureResult) : FutureStore :=
  fs.set i (some r)

/-- Outcome of one iteration of the `_consume_reader` loop body. -/
inductive ReaderStep
  /-- The packet was dispatched (or skipped / discarded); the future store
  after the iteration. -/
  | ok (fs : FutureStore)
  /-- `assert len(auth_responses) == 1` failed: a protocol defect. -/
  | assertionFailed
  /-- asyncio `InvalidStateError`: a result was set on an already-resolved
  future. -/
  | invalidState
  deriving DecidableEq, Repr

/-- One iteration of the `_consume_reader` loop in rcon.py, handling packet
`pkt` against the pending map `m` and future store `fs`.  Mirrors, in
order: the id = −1 auth-failure sentinel (with its `assert`), the
untracked-id discard, the skip of a spurious `SERVERDATA_RESPONSE_VALUE`
for an auth request, and ordinary correlation by id.  The reader never
removes entries from the map (senders do, in `_send_packet`'s `finally`). -/
def consumeOne (m : PendingMap) (fs : FutureStore) (pkt : Packet) : ReaderStep :=
  if pkt.type = SERVERDATA_AUTH_RESPONSE ∧ pkt.pkt_id = -1 then
    match m.filter fun kv => kv.2.is_auth with
    | [(_, e)] =>
      if (fs.getD e.response_future none).isSome then .invalidState
      else .ok (setFuture fs e.response_future .authFailure)
    | _ => .assertionFailed
  else
    match lookupPending m pkt.pkt_id with
    | none => .ok fs
    | some e =>
      if pkt.type = SERVERDATA_RESPONSE_VALUE ∧ e.is_auth then .ok fs
      else if (fs.getD e.response_future none).isSome then .invalidState
      else .ok (setFuture fs e.response_future (.value pkt))

/-! ### The client (rcon.py `RCONClient`) -/

/-- The mutable state of `RCONClient`.  `writer_open` models `self._writer`
being a live (non-`None`, unclosed) stream writer, `reader_attached`
models `self._reader` being non-`None` (set while a connection's
background reader exists). -/
structure RCONClient where
  hostname : String
  port : Int
  password : String
  writer_open : Bool
  reader_attached : Bool
  next_id : Int
  pending : PendingMap
  deriving DecidableEq, Repr

/-- Python `RCONClient._get_next_id`: return `self._next_id`, then
increment it, wrapping to 0 once it exceeds `_MAX_32_BIT_SIGNED_INT`. -/
def RCONClient.get_next_id (c : RCONClient) : Int × RCONClient :=
  let pkt_id := c.next_id
  let incremented := c.next_id + 1
  (pkt_id,
   { c with next_id := if incremented > MAX_32_BIT_SIGNED_INT then 0 else incremented })

/-- Dict assignment `expected_responses_by_request_id[pkt_id] = e`:
overwrite the entry if the key exists, otherwise add it. -/
def registerPending (m : PendingMap) (id : Int) (e : ExpectedResponse) : PendingMap :=
  if (m.map Prod.fst).contains id then
    m.map fun kv => if kv.1 = id then (id, e) else kv
  else (id, e) :: m

/-- The registration prefix of `_send_packet` for a command packet:
allocate an id and insert the pending entry (awaiting future slot
`slot`).  Returns the allocated id and the updated client. -/
def sendStart (c : RCONClient) (slot : Nat) : Int × RCONClient :=
  let (id, c2) := c.get_next_id
  (id, { c2 with pending := registerPending c2.pending id ⟨false, slot⟩ })

/-- `k` successive `sendStart`s none of whose requests resolves (each new
request awaits slot 0; only ids matter below). -/
def iterSend : Nat → RCONClient → RCONClient
  | 0, c => c
  | k + 1, c => iterSend k (sendStart c 0).2

/-- A freshly constructed client (`RCONClient.__init__`). -/
def freshClient : RCONClient :=
  ⟨"localhost", 0, "password", false, false, 0, []⟩

/-- The id returned by the `(k+1)`-th allocation on a fresh client whose
requests never resolve. -/
def nth_allocated_id (k : Nat) : Int :=
  (sendStart (iterSend k freshClient) 0).1

/-- Python `RCONClient.aclose`: close the writer, drop the reader
reference, reset `_next_id` to 0 and replace the pending dict with a fresh
empty one.  The future slots held by awaiting senders are not touched. -/
def RCONClient.aclose (c : RCONClient) (fs : FutureStore) : RCONClient × FutureStore :=
  ({ c with writer_open := false, reader_attached := false, next_id := 0, pending := [] }, fs)

/-- How the environment resolves the login request sent by `connect`. -/
inductive AuthOutcome
  /-- The auth response arrives and correlates with the login id. -/
  | success
  /-- The id = −1 sentinel arrives: `RCONAuthFailure` is raised. -/
  | authFail
  /-- Nothing arrives before the deadline: `asyncio.wait_for` times out. -/
  | timedOut
  deriving DecidableEq, Repr

/-- The environment of one `connect` call. -/
structure ConnectEnv where
  /-- `asyncio.open_connection` raises (e.g. connection refused). -/
  connectionRefused : Bool
  outcome : AuthOutcome
  deriving DecidableEq, Repr

/-- The error a failed `connect` raises. -/
inductive ConnectError
  | connectionError
  | authFailure
  | timedOut
  deriving DecidableEq, Repr

/-- Python `RCONClient.connect`: first `aclose`, then open the connection
(assigning reader and writer and spawning the reader task), then send the
auth packet through `_send_packet`, which registers a pending entry for
the allocated login id and deletes it again in its `finally` block —
whether the await succeeds, raises `RCONAuthFailure`, or is cancelled by
the `asyncio.wait_for` timeout.  On failure nothing closes the stream or
stops the reader.  The login future lives in slot 0 of a fresh store. -/
def RCONClient.connect (c : RCONClient) (env : ConnectEnv) : RCONClient × Option ConnectError :=
  let c1 := (c.aclose []).1
  if env.connectionRefused then (c1, some .connectionError) else
    let c2 := { c1 with writer_open := true, reader_attached := true }
    let (login_id, c3) := c2.get_next_id
    let c4 := { c3 with pending := registerPending c3.pending login_id ⟨true, 0⟩ }
    let c5 := { c4 with pending := [] }
    match env.outcome with
    | .success => (c5, none)
    | .authFail => (c5, some .authFailure)
    | .timedOut => (c5, some .timedOut)

/-! ### The RPC bridge (world.py `World`) -/

/-- The tick-related state of `World` (world.py): `_initial_tick` is fixed
at construction, and `__attrs_post_init__` sets both `_cur_tick` and
`_cur_target_tick` to it. -/
structure World where
  initial_tick : Int
  cur_tick : Int
  cur_target_tick : Int
  deriving DecidableEq, Repr

/-- `World(rcon, initial_tick)` followed by `__attrs_post_init__`. -/
def World.create (initial_tick : Int) : World :=
  ⟨initial_tick, initial_tick, initial_tick⟩

/-- Python `World.get_current_tick`: the current tick relative to the tick
at which the world was loaded. -/
def World.get_current_tick (w : World) : Int :=
  w.cur_tick - w.initial_tick

/-- The polling loop of `World.step`: while `_cur_tick < _cur_target_tick`,
sleep and re-read `game.tick` from the engine.  `observed` is the sequence
of tick values the engine reports to the successive polls; running out of
observations while still below target models a poll loop that never
completes (the engine never reaches the target). -/
def pollTicks (target : Int) (cur : Int) : List Int → Option Int
  | [] => if cur < target then none else some cur
  | o :: rest => if cur < target then pollTicks target o rest else some cur

/-- Outcome of `World.step`. -/
inductive StepOutcome
  /-- `step` returned normally with the updated world state. -/
  | ok (w : World)
  /-- The `assert self._cur_tick == self._cur_target_tick` failed
  ("We lost precise control of time somehow"). -/
  | assertionFailed
  /-- The polling loop never terminated. -/
  | noTermination
  deriving DecidableEq, Repr

/-- Python `World.step`: advance `_cur_target_tick` by `num_ticks`, issue
the "step" RPC (its effect on the engine is reflected in `observed`), poll
until `_cur_tick` is no longer below the target, then assert that it hit
the target exactly. -/
def World.step (w : World) (num_ticks : Int) (observed : List Int) : StepOutcome :=
  let target := w.cur_target_tick + num_ticks
  match pollTicks target w.cur_tick observed with
  | none => .noTermination
  | some cur =>
    if cur = target then .ok { w with cur_tick := cur, cur_target_tick := target }
    else .assertionFailed

/-- A sequence of `step` calls, each with its tick-count argument and the
tick observations its polls receive; `none` if any step fails to return
normally. -/
def World.stepSeq (w : World) : List (Int × List Int) → Option World
  | [] => some w
  | (n, obs) :: rest =>
    match w.step n obs with
    | .ok w2 => w2.stepSeq rest
    | _ => none

/-! ### Batched entity creation (world.py `World.create_entities`) -/

/-- How the engine answers one `create_entity` RPC of the batch:
a created entity description, a `can_place_entity` collision (the mod
returns no result, which the `Optional` return type accepts as `None`), or
any other exception (RPC error, transport failure, ...). -/
inductive ItemOutcome (α : Type)
  | created (d : α)
  | placementCollision
  | otherFailure
  deriving DecidableEq, Repr

/-- The result of one `call_mod(Returns[Optional[EntityDescription]],
"create_entity", [e])` coroutine under `asyncio.gather(...,
return_exceptions=True)`: a value or a captured exception. -/
def create_entity_rpc {α : Type} : ItemOutcome α → Except Unit (Option α)
  | .created d => .ok (some d)
  | .placementCollision => .ok none
  | .otherFailure => .error ()

/-- The value side of the result-splitting loop of `create_entities`
(`results.append(r)` for non-exception gather results). -/
def gather_value {α : Type} : Except Unit (Option α) → Option (Option α)
  | .ok v => some v
  | .error _ => none

/-- The error side of the result-splitting loop of `create_entities`
(`errors.append(r)` for captured exceptions). -/
def gather_error {α : Type} : Except Unit (Option α) → Option Unit
  | .ok _ => none
  | .error e => some e

/-- Python `World.create_entities`: gather the per-item RPC results in
input order, split captured exceptions from values, raise if any
exception was captured, otherwise return the value list. -/
def create_entities {α : Type} (outcomes : List (ItemOutcome α)) :
    Except String (List (Option α)) :=
  let rpc_results := outcomes.map create_entity_rpc
  let results := rpc_results.filterMap gather_value
  let errors := rpc_results.filterMap gather_error
  if errors.isEmpty then .ok results
  else .error "Errors encountered during create_entities, see logs"

/-- The per-item entry `create_entities` is specified to produce. -/
def itemResult {α : Type} : ItemOutcome α → Option α
  | .created d => some d
  | _ => none

/-! ### RPC serialization guard (world.py `World.call_mod`) -/

/-- The single-quote character the rcon command embedding cannot escape. -/
def singleQuote : Char := Char.ofNat 39

/-- A one-character string holding `singleQuote`. -/
def quoteStr : String := String.mk [singleQuote]

/-- The console command `call_mod` builds around the serialized request
document. -/
def rcon_call_command (serialized_request : String) : String :=
  "/silent-command rcon.print(remote.call(" ++ quoteStr ++ "fle" ++ quoteStr ++ ", " ++
    quoteStr ++ "call" ++ quoteStr ++ ", " ++ quoteStr ++ serialized_request ++ quoteStr ++ "))"

/-- Outcome of the send phase of `call_mod`. -/
inductive CallModStep
  /-- `NotImplementedError` raised before anything was sent. -/
  | encodingUnsupported
  /-- The console command that was sent. -/
  | commandSent (cmd : String)
  deriving DecidableEq, Repr

/-- The guard-and-send phase of `World.call_mod`: `serialized_request` is
the `json.dumps` output for the request; `sent` is the history of console
commands the client has issued (the observable protocol-client state this
phase can change).  If the document contains a literal single quote the
call raises before sending; otherwise the embedded command is sent. -/
def call_mod_send (serialized_request : String) (sent : List String) :
    CallModStep × List String :=
  if serialized_request.data.contains singleQuote then
    (.encodingUnsupported, sent)
  else
    (.commandSent (rcon_call_command serialized_request),
     sent ++ [rcon_call_command serialized_request])

/-! ### The process supervisor (factorio_server.py `_try_create_server`) -/

/-- The stages of `_try_create_server` that can fail after the working
directory was created by `tempfile.mkdtemp()`. -/
inductive CreateStage
  | writeSaveFile
  | writeConfigIni
  | writeServerSettings
  | installMod
  | openProcess
  | openRcon
  | queryInitialTick
  deriving DecidableEq, Repr

/-- Stages running inside the inner `try` (after the engine process was
spawned), whose failure also kills the process. -/
def CreateStage.afterProcessSpawn : CreateStage → Bool
  | .openRcon => true
  | .queryInitialTick => true
  | _ => false

/-- Externally visible events of one `_try_create_server` call. -/
inductive CreateEvent
  | mkTmpdir
  | killProcess
  | dumpServerLog
  | rmTmpdir
  | reraise
  | returnHandle
  deriving DecidableEq, Repr

/-- Python `_try_create_server` as an event trace.  `failAt` is the stage
at which the body raises (`none` = success); `pytestEnv` models
`"PYTEST_CURRENT_TEST" in os.environ`, the debug flag under which the
server log is dumped before cleanup.  On any body failure the inner
handler kills the spawned process if one exists, and the outer handler
dumps the log when the debug flag is set (`try`), then — in its `finally`
— removes the working directory and re-raises. -/
def try_create_server (failAt : Option CreateStage) (pytestEnv : Bool) :
    List CreateEvent :=
  CreateEvent.mkTmpdir ::
    match failAt with
    | none => [CreateEvent.returnHandle]
    | some st =>
      (if st.afterProcessSpawn then [CreateEvent.killProcess] else []) ++
      (if pytestEnv then [CreateEvent.dumpServerLog] else []) ++
      [CreateEvent.rmTmpdir, CreateEvent.reraise]

/-! ### Saving (factorio_server.py `FactorioServer.save_world`) -/

/-- One `readline()` poll of the engine log during `save_world`: either an
empty / newline-less read (end of file reached — seek back and sleep), or
a complete line which does or does not contain "Saving finished". -/
inductive LogRead
  | incompleteLine
  | fullLine (hasMarker : Bool)
  deriving DecidableEq, Repr

/-- The log-tailing loop of `save_world`: scan the reads the polls return
within the 10-second deadline window; `true` iff a complete line carrying
the completion marker shows up (the loop then breaks).  The list ending
models the deadline expiring. -/
def tailForMarker : List LogRead → Bool
  | [] => false
  | .incompleteLine :: rest => tailForMarker rest
  | .fullLine m :: rest => m || tailForMarker rest

/-- Where the save artifact lives. -/
structure SaveFiles where
  /-- `saves/<uuid>.zip` exists in the working directory. -/
  workdirArtifact : Bool
  /-- The destination path holds the artifact. -/
  destinationArtifact : Bool
  deriving DecidableEq, Repr

/-- Externally visible events of one `save_world` call. -/
inductive SaveEvent
  | seekLogEnd
  | sendSaveCommand
  | copyToDestination
  | unlinkWorkdirArtifact
  | raiseSaveTimeout
  | returnOk
  deriving DecidableEq, Repr

/-- Python `FactorioServer.save_world` as an event trace: seek to the end
of the engine log, issue `game.server_save`, tail the log for the
completion marker; on timeout raise, on success copy the artifact to the
destination and then unlink it from the working directory. -/
def save_world (reads : List LogRead) : List SaveEvent :=
  SaveEvent.seekLogEnd :: SaveEvent.sendSaveCommand ::
    (if tailForMarker reads then
      [SaveEvent.copyToDestination, SaveEvent.unlinkWorkdirArtifact, SaveEvent.returnOk]
     else [SaveEvent.raiseSaveTimeout])

/-- Filesystem effect of one `save_world` event: the copy materializes the
artifact at the destination (the engine wrote it into the working
directory when it logged the completion marker), the unlink removes the
working-directory copy. -/
def applySaveEvent : SaveFiles → SaveEvent → SaveFiles
  | fs, .copyToDestination => { fs with destinationArtifact := fs.workdirArtifact }
  | fs, .unlinkWorkdirArtifact => { fs with workdirArtifact := false }
  | fs, _ => fs

/-- The filesystem after a `save_world` call, starting from `fs`. -/
def runSave (fs : SaveFiles) (reads : List LogRead) : SaveFiles :=
  (save_world reads).foldl applySaveEvent fs

/-! ## Helper lemmas: the int32 codec -/

theorem int32ToLE_length (v : Int) : (int32ToLE v).length = 4 := rfl

theorem leToInt32_int32ToLE (v : Int) (h1 : -2147483648 ≤ v) (h2 : v < 2147483648) :
    leToInt32 (int32ToLE v) = v := by
  simp only [int32ToLE, leToInt32, List.getD_cons_zero, List.getD_cons_succ]
  split <;> omega

theorem int32ToLE_leToInt32 (b : List Nat) (hlen : b.length = 4)
    (hb : ∀ x ∈ b, x < 256) : int32ToLE (leToInt32 b) = b := by
  match b, hlen with
  | [a0, a1, a2, a3], _ =>
    have h0 := hb a0 (by simp)
    have h1 := hb a1 (by simp)
    have h2 := hb a2 (by simp)
    have h3 := hb a3 (by simp)
    simp only [int32ToLE, leToInt32, List.getD_cons_zero, List.getD_cons_succ]
    split <;> (simp only [List.cons.injEq, and_true]; omega)

/-! ## Helper lemmas: list surgery on frames -/

theorem take4_int32_append (v : Int) (r : List Nat) :
    (int32ToLE v ++ r).take 4 = int32ToLE v := rfl

theorem drop4_int32_append (v : Int) (r : List Nat) :
    (int32ToLE v ++ r).drop 4 = r := rfl

theorem drop8_int32_append (v w : Int) (r : List Nat) :
    (int32ToLE v ++ (int32ToLE w ++ r)).drop 8 = r := rfl

theorem drop12_int32_append (v w x : Int) (r : List Nat) :
    (int32ToLE v ++ (int32ToLE w ++ (int32ToLE x ++ r))).drop 12 = r := rfl

theorem take_length_append {α : Type} (l m : List α) : (l ++ m).take l.length = l := by
  induction l with
  | nil => rfl
  | cons a t ih => simp [ih]

/-! ## C3 helper: reading back a written frame -/

theorem read_write_aux (idv tyv : Int) (body : List Nat)
    (hid1 : -2147483648 ≤ idv) (hid2 : idv < 2147483648)
    (hty1 : -2147483648 ≤ tyv) (hty2 : tyv < 2147483648)
    (hlen : (body.length : Int) + 10 < 2147483648) :
    read_packet (write_packet ⟨idv, tyv, body⟩) = some ⟨idv, tyv, body⟩ := by
  have hpblen : (int32ToLE idv ++ (int32ToLE tyv ++ (body ++ [0, 0]))).length
      = body.length + 10 := by
    simp [int32ToLE_length]
    omega
  have hw : write_packet ⟨idv, tyv, body⟩
      = int32ToLE ((body.length + 10 : Nat) : Int)
        ++ (int32ToLE idv ++ (int32ToLE tyv ++ (body ++ [0, 0]))) := by
    simp only [write_packet, List.append_assoc, hpblen]
  rw [hw]
  have hlen2 : (int32ToLE ((body.length + 10 : Nat) : Int)
      ++ (int32ToLE idv ++ (int32ToLE tyv ++ (body ++ [0, 0])))).length
      = body.length + 14 := by
    simp [int32ToLE_length]
    omega
  unfold read_packet
  rw [hlen2]
  rw [if_neg (by omega : ¬ body.length + 14 < 12)]
  simp only [take4_int32_append, drop4_int32_append, drop8_int32_append,
    drop12_int32_append]
  rw [leToInt32_int32ToLE _ (by omega) (by omega),
      leToInt32_int32ToLE _ hid1 hid2, leToInt32_int32ToLE _ hty1 hty2]
  rw [if_neg (by omega : ¬ ((body.length + 10 : Nat) : Int) - 8 < 0)]
  have hrest : (body ++ [0, 0]).length = body.length + 2 := by simp
  simp only [hrest]
  split
  · have ht : body.length + 2 - 2 = body.length := by omega
    rw [ht, take_length_append]
  · next h => exact absurd (by omega) h

/-! ## C3 helper: re-encoding a decoded frame -/

theorem write_read_aux (b : List Nat) (hbytes : ∀ x ∈ b, x < 256)
    (hsize : leToInt32 (b.take 4) = (b.length : Int) - 4)
    (hlen : 14 ≤ b.length)
    (hterm : b.drop (b.length - 2) = [0, 0]) :
    ∃ p : Packet, read_packet b = some p ∧ write_packet p = b := by
  refine ⟨⟨leToInt32 ((b.drop 4).take 4), leToInt32 ((b.drop 8).take 4),
      (b.drop 12).take (b.length - 12 - 2)⟩, ?_, ?_⟩
  · unfold read_packet
    rw [if_neg (by omega : ¬ b.length < 12)]
    simp only [hsize, List.length_drop]
    split
    · next h => exact absurd h (by omega)
    · split
      · rfl
      · next h => exact absurd (by omega) h
  · have h4len : ((b.drop 4).take 4).length = 4 := by
      simp [List.length_take, List.length_drop]
      omega
    have h8len : ((b.drop 8).take 4).length = 4 := by
      simp [List.length_take, List.length_drop]
      omega
    have htlen : (b.take 4).length = 4 := by
      simp [List.length_take]
      omega
    have h4b : ∀ x ∈ (b.drop 4).take 4, x < 256 :=
      fun x hx => hbytes x (List.drop_subset _ _ (List.take_subset _ _ hx))
    have h8b : ∀ x ∈ (b.drop 8).take 4, x < 256 :=
      fun x hx => hbytes x (List.drop_subset _ _ (List.take_subset _ _ hx))
    have htb : ∀ x ∈ b.take 4, x < 256 :=
      fun x hx => hbytes x (List.take_subset _ _ hx)
    have e1 : (b.drop 12).take (b.length - 12 - 2) ++ [0, 0] = b.drop 12 := by
      have ha : b.length - 12 - 2 = b.length - 14 := by omega
      have hb2 : b.length - 2 = 12 + (b.length - 14) := by omega
      rw [ha, ← hterm, hb2]
      exact List.drop_take_append_drop b 12 (b.length - 14)
    have e2 : (b.drop 8).take 4 ++ b.drop 12 = b.drop 8 := by
      have h := List.drop_take_append_drop b 8 4
      norm_num at h
      exact h
    have e3 : (b.drop 4).take 4 ++ b.drop 8 = b.drop 4 := by
      have h := List.drop_take_append_drop b 4 4
      norm_num at h
      exact h
    have epb : int32ToLE (leToInt32 ((b.drop 4).take 4)) ++
        (int32ToLE (leToInt32 ((b.drop 8).take 4)) ++
         ((b.drop 12).take (b.length - 12 - 2) ++ [0, 0])) = b.drop 4 := by
      rw [int32ToLE_leToInt32 _ h4len h4b, int32ToLE_leToInt32 _ h8len h8b, e1, e2, e3]
    simp only [write_packet, List.append_assoc]
    rw [epb, List.length_drop]
    rw [show ((b.length - 4 : Nat) : Int) = (b.length : Int) - 4 by omega]
    rw [← hsize, int32ToLE_leToInt32 _ htlen htb]
    exact List.take_append_drop 4 b

/-! ## Claim C3 -/

/-- C3: for every packet `p` (id, type and body framable as int32s and
bytes), decoding the encoded wire form yields `p` back; dually, every
well-formed frame `b` decodes to a packet that re-encodes to exactly `b`.
The wire form is little-endian int32 total length, int32 id, int32 type,
body bytes, two terminating null bytes. -/
theorem c3_framing_roundtrip :
    (∀ p : Packet, ValidPacket p → read_packet (write_packet p) = some p) ∧
    (∀ b : List Nat, WellFormedFrame b →
      ∃ p : Packet, read_packet b = some p ∧ write_packet p = b) := by
  constructor
  · intro p hv
    obtain ⟨h1, h2, h3, h4, h5, _⟩ := hv
    obtain ⟨idv, tyv, body⟩ := p
    exact read_write_aux idv tyv body h1 h2 h3 h4 h5
  · intro b hw
    obtain ⟨hbytes, hsize, hlen, hterm⟩ := hw
    exact write_read_aux b hbytes hsize hlen hterm

/-- Witness for C3: both directions applied at a concrete packet and a
concrete 16-byte frame. -/
theorem c3_framing_roundtrip_witness :
    read_packet (write_packet ⟨7, 2, [104, 105]⟩) = some ⟨7, 2, [104, 105]⟩ ∧
    ∃ p : Packet,
      read_packet [12, 0, 0, 0, 7, 0, 0, 0, 2, 0, 0, 0, 104, 105, 0, 0] = some p ∧
      write_packet p = [12, 0, 0, 0, 7, 0, 0, 0, 2, 0, 0, 0, 104, 105, 0, 0] :=
  ⟨c3_framing_roundtrip.1 ⟨7, 2, [104, 105]⟩ (by unfold ValidPacket; decide),
   c3_framing_roundtrip.2 [12, 0, 0, 0, 7, 0, 0, 0, 2, 0, 0, 0, 104, 105, 0, 0]
     (by unfold WellFormedFrame; decide)⟩

/-! ## Helper lemmas: the tick-stepping loop -/

theorem pollTicks_le (target : Int) (obs : List Int) :
    ∀ cur c : Int, pollTicks target cur obs = some c → target ≤ c := by
  induction obs with
  | nil =>
    intro cur c h
    unfold pollTicks at h
    split at h
    · simp at h
    · next hc =>
      injection h with h2
      omega
  | cons o rest ih =>
    intro cur c h
    unfold pollTicks at h
    split at h
    · exact ih o c h
    · next hc =>
      injection h with h2
      omega

theorem step_ok_state (w : World) (n : Int) (obs : List Int) (w2 : World)
    (h : w.step n obs = .ok w2) :
    w2.initial_tick = w.initial_tick ∧ w2.cur_target_tick = w.cur_target_tick + n ∧
    w2.cur_tick = w2.cur_target_tick := by
  simp only [World.step] at h
  cases hp : pollTicks (w.cur_target_tick + n) w.cur_tick obs with
  | none =>
    simp only [hp] at h
    exact StepOutcome.noConfusion h
  | some c =>
    simp only [hp] at h
    split at h
    · next hc =>
      injection h with h2
      subst h2
      exact ⟨rfl, rfl, hc⟩
    · exact StepOutcome.noConfusion h

theorem stepSeq_state (steps : List (Int × List Int)) :
    ∀ w w2 : World, w.stepSeq steps = some w2 →
      w2.initial_tick = w.initial_tick ∧
      w2.cur_target_tick = w.cur_target_tick + (steps.map Prod.fst).sum ∧
      (w2.cur_tick = w2.cur_target_tick ∨ w2 = w) := by
  induction steps with
  | nil =>
    intro w w2 h
    unfold World.stepSeq at h
    injection h with h2
    subst h2
    simp
  | cons s rest ih =>
    intro w w2 h
    obtain ⟨n, obs⟩ := s
    unfold World.stepSeq at h
    cases hs : w.step n obs with
    | ok w1 =>
      rw [hs] at h
      obtain ⟨hi, ht, hc⟩ := step_ok_state w n obs w1 hs
      obtain ⟨hi2, ht2, hc2⟩ := ih w1 w2 h
      refine ⟨hi2.trans hi, ?_, ?_⟩
      · simp only [List.map_cons, List.sum_cons]
        omega
      · left
        cases hc2 with
        | inl h2 => exact h2
        | inr h2 => subst h2; exact hc
    | assertionFailed => rw [hs] at h; simp at h
    | noTermination => rw [hs] at h; simp at h

/-! ## Claim C1 -/

/-- C1: a normally returning `step` leaves the observed tick equal to the
target tick; an observed tick exceeding the running target makes `step`
fail the "We lost precise control of time" assertion rather than return;
and after any sequence of normally returning steps from a freshly created
world, the tick relative to `initial_tick` equals the sum of the step
arguments while `last_observed_tick ≤ target_tick` holds. -/
theorem c1_tick_invariant :
    (∀ (w : World) (n : Int) (obs : List Int) (w2 : World),
       w.step n obs = .ok w2 → w2.cur_tick = w2.cur_target_tick) ∧
    (∀ (w : World) (n : Int) (obs : List Int) (c : Int),
       pollTicks (w.cur_target_tick + n) w.cur_tick obs = some c →
       w.cur_target_tick + n < c → w.step n obs = .assertionFailed) ∧
    (∀ (initial : Int) (steps : List (Int × List Int)) (w2 : World),
       (World.create initial).stepSeq steps = some w2 →
       w2.get_current_tick = (steps.map Prod.fst).sum ∧
       w2.cur_tick ≤ w2.cur_target_tick) := by
  refine ⟨?_, ?_, ?_⟩
  · intro w n obs w2 h
    exact (step_ok_state w n obs w2 h).2.2
  · intro w n obs c hp hover
    simp only [World.step, hp]
    rw [if_neg (by omega : ¬ c = w.cur_target_tick + n)]
  · intro initial steps w2 h
    obtain ⟨hi, ht, hc⟩ := stepSeq_state steps (World.create initial) w2 h
    simp only [World.create] at hi ht
    have hcur : w2.cur_tick = w2.cur_target_tick := by
      cases hc with
      | inl h2 => exact h2
      | inr h2 => subst h2; rfl
    unfold World.get_current_tick
    constructor
    · omega
    · omega

/-- Witness for C1: two steps of 3 and 2 ticks from a world created at
tick 10, plus an overshooting poll observation. -/
theorem c1_tick_invariant_witness :
    ((World.create 10).stepSeq [(3, [11, 13]), (2, [15])] = some ⟨10, 15, 15⟩ ∧
     World.get_current_tick ⟨10, 15, 15⟩
       = (([(3, [11, 13]), (2, [15])] : List (Int × List Int)).map Prod.fst).sum ∧
     (10 : Int) + 5 ≤ 15) ∧
    World.step ⟨0, 0, 0⟩ 1 [5] = .assertionFailed := by
  have hseq : (World.create 10).stepSeq [(3, [11, 13]), (2, [15])] = some ⟨10, 15, 15⟩ := by
    decide
  have h := c1_tick_invariant.2.2 10 [(3, [11, 13]), (2, [15])] ⟨10, 15, 15⟩ hseq
  refine ⟨⟨hseq, h.1, by decide⟩, ?_⟩
  exact c1_tick_invariant.2.1 ⟨0, 0, 0⟩ 1 [5] 5 (by decide) (by decide)

/-! ## Helper lemmas: future slots -/

theorem setFuture_getD_self (fs : FutureStore) (i : Nat) (r : FutureResult)
    (h : i < fs.length) : (setFuture fs i r).getD i none = some r := by
  unfold setFuture
  simp [List.getD_eq_getElem?_getD, List.getElem?_set_self h]

theorem setFuture_getD_ne (fs : FutureStore) (i j : Nat) (r : FutureResult)
    (h : i ≠ j) : (setFuture fs i r).getD j none = fs.getD j none := by
  unfold setFuture
  simp [List.getD_eq_getElem?_getD, List.getElem?_set_ne h]

/-! ## Claim C2 -/

/-- C2: when the reader receives an auth-response packet with sentinel
id −1 and exactly one pending request is flagged `is_auth`, it resolves
exactly that request's future with the authentication failure (other
slots untouched); when zero or more than one `is_auth` requests are
pending, the `assert len(auth_responses) == 1` fails instead of being
handled. -/
theorem c2_auth_sentinel :
    (∀ (m : PendingMap) (fs : FutureStore) (body : List Nat) (k : Int)
       (e : ExpectedResponse),
        m.filter (fun kv => kv.2.is_auth) = [(k, e)] →
        fs.getD e.response_future none = none →
        e.response_future < fs.length →
        consumeOne m fs ⟨-1, SERVERDATA_AUTH_RESPONSE, body⟩
            = .ok (setFuture fs e.response_future .authFailure) ∧
          (setFuture fs e.response_future .authFailure).getD e.response_future none
            = some .authFailure ∧
          ∀ j : Nat, j ≠ e.response_future →
            (setFuture fs e.response_future .authFailure).getD j none = fs.getD j none) ∧
    (∀ (m : PendingMap) (fs : FutureStore) (body : List Nat),
        (m.filter (fun kv => kv.2.is_auth)).length ≠ 1 →
        consumeOne m fs ⟨-1, SERVERDATA_AUTH_RESPONSE, body⟩ = .assertionFailed) := by
  constructor
  · intro m fs body k e hfilter hnone hlen
    refine ⟨?_, setFuture_getD_self fs e.response_future .authFailure hlen,
            fun j hj => setFuture_getD_ne fs e.response_future j .authFailure
              (fun hij => hj hij.symm)⟩
    have hnone2 : fs[e.response_future]?.getD none = none := by
      simpa [List.getD_eq_getElem?_getD] using hnone
    simp [consumeOne, hfilter, hnone2]
  · intro m fs body hne
    unfold consumeOne
    split
    · cases hf : m.filter (fun kv => kv.2.is_auth) with
      | nil => rfl
      | cons kv rest =>
        cases rest with
        | nil => exact absurd (by rw [hf]; rfl) hne
        | cons kv2 rest2 =>
          obtain ⟨a, b⟩ := kv
          rfl
    · next hnc => exact absurd ⟨rfl, rfl⟩ hnc

/-- Witness for C2: a two-entry pending map whose only auth entry awaits
slot 0, and a map with no auth entry. -/
theorem c2_auth_sentinel_witness :
    consumeOne [((0 : Int), ⟨true, 0⟩), (1, ⟨false, 1⟩)] [none, none]
        ⟨-1, SERVERDATA_AUTH_RESPONSE, []⟩
      = .ok [some .authFailure, none] ∧
    consumeOne [((1 : Int), ⟨false, 1⟩)] [none, none]
        ⟨-1, SERVERDATA_AUTH_RESPONSE, []⟩
      = .assertionFailed := by
  constructor
  · have h := (c2_auth_sentinel.1 [((0 : Int), ⟨true, 0⟩), (1, ⟨false, 1⟩)]
      [none, none] [] 0 ⟨true, 0⟩ (by decide) (by decide) (by decide)).1
    rw [h]
    rfl
  · exact c2_auth_sentinel.2 [((1 : Int), ⟨false, 1⟩)] [none, none] [] (by decide)

/-! ## Helper lemmas: id allocation -/

theorem MAX_value : MAX_32_BIT_SIGNED_INT = 2147483647 := by
  norm_num [MAX_32_BIT_SIGNED_INT]

theorem sendStart_fst (c : RCONClient) (slot : Nat) : (sendStart c slot).1 = c.next_id := rfl

theorem sendStart_next_id (c : RCONClient) (slot : Nat) :
    (sendStart c slot).2.next_id
      = if c.next_id + 1 > MAX_32_BIT_SIGNED_INT then 0 else c.next_id + 1 := rfl

theorem iterSend_succ_shape (k : Nat) (c : RCONClient) :
    iterSend (k + 1) c = iterSend k (sendStart c 0).2 := rfl

theorem iterSend_next_id (k : Nat) : ∀ c : RCONClient,
    0 ≤ c.next_id → c.next_id < 2147483648 →
    (iterSend k c).next_id = (c.next_id + k) % 2147483648 := by
  induction k with
  | zero =>
    intro c h1 h2
    unfold iterSend
    omega
  | succ k ih =>
    intro c h1 h2
    rw [iterSend_succ_shape]
    have hb : 0 ≤ (sendStart c 0).2.next_id ∧ (sendStart c 0).2.next_id < 2147483648 := by
      rw [sendStart_next_id, MAX_value]
      split <;> omega
    rw [ih _ hb.1 hb.2, sendStart_next_id, MAX_value]
    split <;> omega

theorem registerPending_keeps (m : PendingMap) (id0 idn : Int) (e : ExpectedResponse)
    (h : id0 ∈ m.map Prod.fst) : id0 ∈ (registerPending m idn e).map Prod.fst := by
  unfold registerPending
  split
  · obtain ⟨kv, hkv, rfl⟩ := List.mem_map.1 h
    simp only [List.map_map]
    refine List.mem_map.2 ⟨kv, hkv, ?_⟩
    by_cases hc : kv.1 = idn
    · simp [hc]
    · simp [hc]
  · simp only [List.map_cons]
    exact List.mem_cons_of_mem _ h

theorem iterSend_pending_keeps (k : Nat) : ∀ c : RCONClient,
    (0 : Int) ∈ c.pending.map Prod.fst →
    (0 : Int) ∈ (iterSend k c).pending.map Prod.fst := by
  induction k with
  | zero => intro c h; exact h
  | succ k ih =>
    intro c h
    rw [iterSend_succ_shape]
    exact ih _ (registerPending_keeps c.pending 0 c.next_id ⟨false, 0⟩ h)

theorem nth_allocated_id_formula (k : Nat) :
    nth_allocated_id k = (k : Int) % 2147483648 := by
  unfold nth_allocated_id
  rw [sendStart_fst, iterSend_next_id k freshClient (by decide) (by decide)]
  norm_num [freshClient]

theorem iterSend_pending_keeps_succ (k : Nat) (c : RCONClient)
    (h : (0 : Int) ∈ (sendStart c 0).2.pending.map Prod.fst) :
    (0 : Int) ∈ (iterSend (k + 1) c).pending.map Prod.fst := by
  rw [iterSend_succ_shape]
  exact iterSend_pending_keeps k _ h

/-! ## Claim C4 -/

/-- Counterexample for C4: from a fresh client whose requests never get
resolved, the very first allocation hands out id 0; after 2^31 allocations
in total, the next allocation hands out id 0 again even though a request
bearing id 0 is still registered in the pending map — so an id *can* be
reused while a request bearing it is in flight. -/
theorem c4_id_reuse_counterexample :
    nth_allocated_id 0 = 0 ∧
    nth_allocated_id 2147483648 = 0 ∧
    (0 : Int) ∈ (iterSend 2147483648 freshClient).pending.map Prod.fst := by
  refine ⟨(nth_allocated_id_formula 0).trans (by decide), ?_, ?_⟩
  · exact (nth_allocated_id_formula 2147483648).trans (by decide)
  · exact iterSend_pending_keeps_succ 2147483647 freshClient (by decide)

/-- C4 as amended: allocated ids are non-negative, increase by one per
allocation until 2^31 − 1 and then wrap to 0; ids are pairwise distinct
within any window of fewer than 2^31 consecutive allocations (so an id is
reused only once 2^31 further allocations have happened, not never). -/
theorem c4_id_allocation (k j j2 : Nat) :
    nth_allocated_id k = (k : Int) % 2147483648 ∧
    0 ≤ nth_allocated_id k ∧
    (nth_allocated_id k < MAX_32_BIT_SIGNED_INT →
      nth_allocated_id (k + 1) = nth_allocated_id k + 1) ∧
    (nth_allocated_id k = MAX_32_BIT_SIGNED_INT → nth_allocated_id (k + 1) = 0) ∧
    (j < j2 → j2 < j + 2147483648 → nth_allocated_id j ≠ nth_allocated_id j2) := by
  have hform : ∀ i : Nat, nth_allocated_id i = (i : Int) % 2147483648 :=
    nth_allocated_id_formula
  refine ⟨hform k, ?_, ?_, ?_, ?_⟩
  · rw [hform k]
    omega
  · rw [hform k, hform (k + 1), MAX_value]
    intro h
    omega
  · rw [hform k, hform (k + 1), MAX_value]
    intro h
    omega
  · intro h1 h2
    rw [hform j, hform j2]
    omega

/-- Witness for C4 (amended): concrete allocations 5, 6, the wrap at
2^31 − 1, and distinctness of allocations 3 and 7. -/
theorem c4_id_allocation_witness :
    nth_allocated_id 5 = (5 : Int) % 2147483648 ∧
    0 ≤ nth_allocated_id 5 ∧
    nth_allocated_id 6 = nth_allocated_id 5 + 1 ∧
    nth_allocated_id (2147483647 + 1) = 0 ∧
    nth_allocated_id 3 ≠ nth_allocated_id 7 := by
  have h5 := c4_id_allocation 5 3 7
  have hw := c4_id_allocation 2147483647 3 7
  refine ⟨h5.1, h5.2.1, h5.2.2.1 ?_, hw.2.2.2.1 (hw.1.trans (by decide)), 
    h5.2.2.2.2 (by decide) (by decide)⟩
  rw [h5.1, MAX_value]
  decide

/-! ## Claim C5 -/

/-- C5: whenever `_try_create_server` fails at any stage after the working
directory was created, the directory is removed before the error is
re-raised (with the debug log dump, under the pytest debug flag, happening
before the removal), and no handle is returned; a successful call keeps
the directory. -/
theorem c5_create_cleanup (st : CreateStage) (pytestEnv : Bool) :
    (CreateEvent.rmTmpdir ∈ try_create_server (some st) pytestEnv ∧
     (try_create_server (some st) pytestEnv).getLast? = some CreateEvent.reraise ∧
     CreateEvent.returnHandle ∉ try_create_server (some st) pytestEnv ∧
     (try_create_server (some st) pytestEnv).indexOf CreateEvent.rmTmpdir
        < (try_create_server (some st) pytestEnv).indexOf CreateEvent.reraise ∧
     (pytestEnv = true →
        (try_create_server (some st) pytestEnv).indexOf CreateEvent.dumpServerLog
          < (try_create_server (some st) pytestEnv).indexOf CreateEvent.rmTmpdir)) ∧
    CreateEvent.rmTmpdir ∉ try_create_server none pytestEnv := by
  cases st <;> cases pytestEnv <;> decide

/-- Witness for C5: failure while opening the RCON connection, in the
pytest (debug) environment, plus the successful case. -/
theorem c5_create_cleanup_witness :
    CreateEvent.rmTmpdir ∈ try_create_server (some .openRcon) true ∧
    (try_create_server (some .openRcon) true).getLast? = some CreateEvent.reraise ∧
    CreateEvent.returnHandle ∉ try_create_server (some .openRcon) true ∧
    (try_create_server (some .openRcon) true).indexOf CreateEvent.rmTmpdir
       < (try_create_server (some .openRcon) true).indexOf CreateEvent.reraise ∧
    (try_create_server (some .openRcon) true).indexOf CreateEvent.dumpServerLog
       < (try_create_server (some .openRcon) true).indexOf CreateEvent.rmTmpdir ∧
    CreateEvent.rmTmpdir ∉ try_create_server none true := by
  have h := c5_create_cleanup .openRcon true
  exact ⟨h.1.1, h.1.2.1, h.1.2.2.1, h.1.2.2.2.1, h.1.2.2.2.2 rfl, h.2⟩

/-! ## Claim C6 -/

/-- Counterexample for C6: `aclose` on a client with one pending request
(id 3, awaiting the unresolved future slot 0) completes and empties the
pending map, yet the caller's future slot is still unresolved afterwards —
the pending request is dropped without any terminal signal, so a sender
awaiting it with no finite timeout of its own would wait forever. -/
theorem c6_close_counterexample :
    (RCONClient.aclose ⟨"localhost", 25575, "pw", true, true, 5, [(3, ⟨false, 0⟩)]⟩
        [none]).2.getD 0 none = none ∧
    (RCONClient.aclose ⟨"localhost", 25575, "pw", true, true, 5, [(3, ⟨false, 0⟩)]⟩
        [none]).1.pending = [] :=
  ⟨rfl, rfl⟩

/-- C6 as amended: `aclose` shuts the stream, drops the reader reference,
resets the id counter and replaces the pending map with an empty one, but
leaves every future slot exactly as it was: pending callers receive no
terminal signal from `close()` and are released only by their own
`asyncio.wait_for` timeouts. -/
theorem c6_close_behaviour (c : RCONClient) (fs : FutureStore) :
    (c.aclose fs).1.writer_open = false ∧
    (c.aclose fs).1.reader_attached = false ∧
    (c.aclose fs).1.next_id = 0 ∧
    (c.aclose fs).1.pending = [] ∧
    (c.aclose fs).2 = fs :=
  ⟨rfl, rfl, rfl, rfl, rfl⟩

/-! ## Claim C7 -/

/-- Counterexample for C7: a `connect` on a fresh client that fails with
the authentication-failure sentinel returns with the stream still open and
the background reader still attached — the failing `connect` does not
leave the client fully closed. -/
theorem c7_connect_counterexample :
    (freshClient.connect ⟨false, .authFail⟩).2 = some .authFailure ∧
    (freshClient.connect ⟨false, .authFail⟩).1.writer_open = true ∧
    (freshClient.connect ⟨false, .authFail⟩).1.reader_attached = true := by
  refine ⟨?_, ?_, ?_⟩ <;> decide

/-- C7 as amended: any failing `connect` leaves no pending request behind;
a connection-refused failure does leave the client fully closed; but after
an authentication failure or a timeout the stream stays open and the
reader attached — cleanup happens only because the *next* `connect` begins
with `aclose`, which is what makes a retry safe: with a benign environment
a retried `connect` succeeds regardless of the state a failure left. -/
theorem c7_connect_failure (c : RCONClient) (env : ConnectEnv) :
    ((c.connect env).2.isSome → (c.connect env).1.pending = []) ∧
    (env.connectionRefused = true →
       (c.connect env).1.writer_open = false ∧
       (c.connect env).1.reader_attached = false ∧
       (c.connect env).1.next_id = 0 ∧
       (c.connect env).1.pending = []) ∧
    (env.connectionRefused = false → env.outcome = .authFail →
       (c.connect env).2 = some .authFailure ∧
       (c.connect env).1.writer_open = true ∧
       (c.connect env).1.reader_attached = true) ∧
    (env.connectionRefused = false → env.outcome = .success →
       (c.connect env).2 = none) := by
  obtain ⟨refused, outcome⟩ := env
  cases refused <;> cases outcome <;>
    simp [RCONClient.connect, RCONClient.aclose, RCONClient.get_next_id, registerPending]

/-- Witness for C7 (amended): a timed-out, a refused and an auth-failed
`connect` on a fresh client, and a successful retry directly on the state
the auth failure left behind. -/
theorem c7_connect_failure_witness :
    (freshClient.connect ⟨false, .timedOut⟩).1.pending = [] ∧
    (freshClient.connect ⟨true, .success⟩).1.writer_open = false ∧
    (freshClient.connect ⟨false, .authFail⟩).2 = some .authFailure ∧
    ((freshClient.connect ⟨false, .authFail⟩).1.connect ⟨false, .success⟩).2 = none := by
  have h1 := c7_connect_failure freshClient ⟨false, .timedOut⟩
  have h2 := c7_connect_failure freshClient ⟨true, .success⟩
  have h3 := c7_connect_failure freshClient ⟨false, .authFail⟩
  have h4 := c7_connect_failure (freshClient.connect ⟨false, .authFail⟩).1 ⟨false, .success⟩
  exact ⟨h1.1 (by decide), (h2.2.1 rfl).1, (h3.2.2.1 rfl rfl).1, h4.2.2.2 rfl rfl⟩

/-! ## Helper lemmas: the save log tail -/

theorem tailForMarker_iff (reads : List LogRead) :
    tailForMarker reads = true ↔ LogRead.fullLine true ∈ reads := by
  induction reads with
  | nil => simp [tailForMarker]
  | cons r rest ih =>
    cases r with
    | incompleteLine => simp [tailForMarker, ih]
    | fullLine m =>
      cases m with
      | false => simp [tailForMarker, ih]
      | true => simp [tailForMarker]

/-! ## Claim C8 -/

/-- C8: `save_world` records the log position (seek to end) before issuing
the in-engine save command; if the completion marker shows up in the polls
before the deadline, the artifact is copied to the destination and then
removed from the working directory (so afterwards the destination holds
it and the working directory does not) and the call returns normally; if
no marker shows up within the deadline window, the call raises the save
timeout and touches no files. -/
theorem c8_save_world (reads : List LogRead) (fs : SaveFiles) :
    (save_world reads).take 2 = [SaveEvent.seekLogEnd, SaveEvent.sendSaveCommand] ∧
    (LogRead.fullLine true ∈ reads →
       save_world reads = [SaveEvent.seekLogEnd, SaveEvent.sendSaveCommand,
         SaveEvent.copyToDestination, SaveEvent.unlinkWorkdirArtifact, SaveEvent.returnOk] ∧
       runSave ⟨true, false⟩ reads = ⟨false, true⟩) ∧
    (LogRead.fullLine true ∉ reads →
       save_world reads = [SaveEvent.seekLogEnd, SaveEvent.sendSaveCommand,
         SaveEvent.raiseSaveTimeout] ∧
       runSave fs reads = fs) := by
  have hiff := tailForMarker_iff reads
  refine ⟨?_, ?_, ?_⟩
  · unfold save_world
    split <;> rfl
  · intro hm
    have ht : tailForMarker reads = true := hiff.2 hm
    constructor
    · simp [save_world, ht]
    · simp [runSave, save_world, ht, applySaveEvent]
  · intro hm
    have ht : tailForMarker reads = false := by
      cases hcase : tailForMarker reads
      · rfl
      · exact absurd (hiff.1 hcase) hm
    constructor
    · simp [save_world, ht]
    · simp [runSave, save_world, ht, applySaveEvent]

/-- Witness for C8: a poll sequence that sees the marker on its third
read, and one that never sees it. -/
theorem c8_save_world_witness :
    (save_world [.incompleteLine, .fullLine false, .fullLine true]).take 2
      = [SaveEvent.seekLogEnd, SaveEvent.sendSaveCommand] ∧
    save_world [.incompleteLine, .fullLine false, .fullLine true]
      = [SaveEvent.seekLogEnd, SaveEvent.sendSaveCommand, SaveEvent.copyToDestination,
         SaveEvent.unlinkWorkdirArtifact, SaveEvent.returnOk] ∧
    runSave ⟨true, false⟩ [.incompleteLine, .fullLine false, .fullLine true]
      = ⟨false, true⟩ ∧
    save_world [.incompleteLine, .fullLine false]
      = [SaveEvent.seekLogEnd, SaveEvent.sendSaveCommand, SaveEvent.raiseSaveTimeout] ∧
    runSave ⟨true, false⟩ [.incompleteLine, .fullLine false] = ⟨true, false⟩ := by
  have h1 := c8_save_world [.incompleteLine, .fullLine false, .fullLine true] ⟨true, false⟩
  have h2 := c8_save_world [.incompleteLine, .fullLine false] ⟨true, false⟩
  have hmem : LogRead.fullLine true ∈
      [LogRead.incompleteLine, .fullLine false, .fullLine true] := by decide
  have hnmem : LogRead.fullLine true ∉ [LogRead.incompleteLine, .fullLine false] := by decide
  exact ⟨h1.1, (h1.2.1 hmem).1, (h1.2.1 hmem).2, (h2.2.2 hnmem).1, (h2.2.2 hnmem).2⟩

/-! ## Helper lemmas: batched entity creation -/

theorem create_entities_errors_nil {α : Type} (outcomes : List (ItemOutcome α))
    (h : ∀ o ∈ outcomes, o ≠ ItemOutcome.otherFailure) :
    (outcomes.map create_entity_rpc).filterMap gather_error = [] := by
  induction outcomes with
  | nil => rfl
  | cons o rest ih =>
    have hrest := fun x hx => h x (List.mem_cons_of_mem o hx)
    cases o with
    | created d => simpa [create_entity_rpc, gather_error] using ih hrest
    | placementCollision => simpa [create_entity_rpc, gather_error] using ih hrest
    | otherFailure => exact absurd rfl (h _ (List.mem_cons_self _ rest))

theorem create_entities_results_map {α : Type} (outcomes : List (ItemOutcome α))
    (h : ∀ o ∈ outcomes, o ≠ ItemOutcome.otherFailure) :
    (outcomes.map create_entity_rpc).filterMap gather_value = outcomes.map itemResult := by
  induction outcomes with
  | nil => rfl
  | cons o rest ih =>
    have hrest := fun x hx => h x (List.mem_cons_of_mem o hx)
    cases o with
    | created d => simpa [create_entity_rpc, gather_value, itemResult] using ih hrest
    | placementCollision =>
      simpa [create_entity_rpc, gather_value, itemResult] using ih hrest
    | otherFailure => exact absurd rfl (h _ (List.mem_cons_self _ rest))

theorem create_entities_errors_ne_nil {α : Type} (outcomes : List (ItemOutcome α))
    (h : ItemOutcome.otherFailure ∈ outcomes) :
    (outcomes.map create_entity_rpc).filterMap gather_error ≠ [] := by
  induction outcomes with
  | nil => simp at h
  | cons o rest ih =>
    cases o with
    | created d =>
      have h2 : ItemOutcome.otherFailure ∈ rest := by
        cases List.mem_cons.1 h with
        | inl h3 => exact absurd h3.symm (by simp)
        | inr h3 => exact h3
      simpa [create_entity_rpc, gather_error] using ih h2
    | placementCollision =>
      have h2 : ItemOutcome.otherFailure ∈ rest := by
        cases List.mem_cons.1 h with
        | inl h3 => exact absurd h3.symm (by simp)
        | inr h3 => exact h3
      simpa [create_entity_rpc, gather_error] using ih h2
    | otherFailure => simp [create_entity_rpc, gather_error]

/-! ## Claim C9 -/

/-- C9: when no item of the batch hits a non-collision failure,
`create_entities` returns a result list of the same length as the input
in which position `i` is `None` exactly when item `i` hit a placement
collision (and carries the created entity otherwise); when any item hits
a non-collision failure, the whole batch fails with the batch error and
no result list is returned. -/
theorem c9_create_entities {α : Type} (outcomes : List (ItemOutcome α)) :
    ((∀ o ∈ outcomes, o ≠ ItemOutcome.otherFailure) →
       create_entities outcomes = .ok (outcomes.map itemResult) ∧
       (outcomes.map itemResult).length = outcomes.length ∧
       (∀ i : Nat, (outcomes.map itemResult)[i]? = some none ↔
           outcomes[i]? = some ItemOutcome.placementCollision) ∧
       (∀ (i : Nat) (d : α), (outcomes.map itemResult)[i]? = some (some d) ↔
           outcomes[i]? = some (ItemOutcome.created d))) ∧
    (ItemOutcome.otherFailure ∈ outcomes →
       create_entities outcomes
         = .error "Errors encountered during create_entities, see logs") := by
  constructor
  · intro h
    refine ⟨?_, List.length_map _ _, ?_, ?_⟩
    · simp only [create_entities]
      rw [create_entities_errors_nil outcomes h]
      rw [create_entities_results_map outcomes h]
      rfl
    · intro i
      rw [List.getElem?_map]
      cases hi : outcomes[i]? with
      | none => simp
      | some o =>
        have hmem : o ∈ outcomes := List.getElem?_mem hi
        cases o with
        | created d => simp [itemResult]
        | placementCollision => simp [itemResult]
        | otherFailure => exact absurd rfl (h _ hmem)
    · intro i d
      rw [List.getElem?_map]
      cases hi : outcomes[i]? with
      | none => simp
      | some o =>
        cases o with
        | created d2 => simp [itemResult]
        | placementCollision => simp [itemResult]
        | otherFailure => simp [itemResult]
  · intro h
    simp only [create_entities]
    have hne := create_entities_errors_ne_nil outcomes h
    rw [if_neg (by simpa [List.isEmpty_iff] using hne)]

/-- Witness for C9: a three-item batch with a collision in the middle and
a two-item batch whose second item fails. -/
theorem c9_create_entities_witness :
    create_entities [ItemOutcome.created (1 : Nat), .placementCollision, .created 2]
      = .ok [some 1, none, some 2] ∧
    ([ItemOutcome.created (1 : Nat), .placementCollision, .created 2].map itemResult).length
      = 3 ∧
    ([ItemOutcome.created (1 : Nat), .placementCollision, .created 2].map itemResult)[1]?
      = some none ∧
    create_entities [ItemOutcome.created (1 : Nat), .otherFailure]
      = .error "Errors encountered during create_entities, see logs" := by
  have h1 := (c9_create_entities [ItemOutcome.created (1 : Nat), .placementCollision,
    .created 2]).1 (by decide)
  have h2 := (c9_create_entities [ItemOutcome.created (1 : Nat), .otherFailure]).2 (by decide)
  exact ⟨h1.1.trans (by rfl), h1.2.1, (h1.2.2.1 1).2 (by decide), h2⟩

/-! ## Claim C10 -/

/-- C10: if the serialized request document contains a literal single
quote, the send phase of `call_mod` fails with the unsupported-encoding
error before anything is sent — no console command is issued and the sent
history is unchanged; a document without a single quote passes the check
and the embedded command is issued. -/
theorem c10_quote_guard (s : String) (sent : List String) :
    (s.data.contains singleQuote = true →
       call_mod_send s sent = (.encodingUnsupported, sent)) ∧
    (s.data.contains singleQuote = false →
       call_mod_send s sent
         = (.commandSent (rcon_call_command s), sent ++ [rcon_call_command s])) := by
  constructor
  · intro h
    unfold call_mod_send
    split
    · rfl
    · next hn => exact absurd h hn
  · intro h
    unfold call_mod_send
    split
    · next hc =>
      rw [h] at hc
      exact Bool.noConfusion hc
    · rfl

/-- Witness for C10: a serialized document carrying a quoted string is
rejected with the history untouched; a quote-free document is sent. -/
theorem c10_quote_guard_witness :
    call_mod_send ("[1, " ++ quoteStr ++ "x" ++ quoteStr ++ "]") ["earlier"]
      = (.encodingUnsupported, ["earlier"]) ∧
    call_mod_send "[1, 2]" ["earlier"]
      = (.commandSent (rcon_call_command "[1, 2]"),
         ["earlier"] ++ [rcon_call_command "[1, 2]"]) :=
  ⟨(c10_quote_guard ("[1, " ++ quoteStr ++ "x" ++ quoteStr ++ "]") ["earlier"]).1 (by decide),
   (c10_quote_guard "[1, 2]" ["earlier"]).2 (by decide)⟩
